import Mathlib

/-!
Verification of the tari node controller and of the wallet FFI transaction
core against the repository specification.

The development has two halves.  The first half is a shallow embedding of
the concrete C++ sources under src/applications/tari_node_controller
(grpcclient.cpp, basenode.cpp, config.cpp) together with the documented
status tables of the wallet FFI headers under src/base_layer/wallet_ffi.
The second half is a model of the wallet transaction-lifecycle core; that
core is only declared by the headers in this repository (its implementation
lives in an external library), so its definitions are modelled from the
specification text and are marked as such in their doc comments.
-/

/- ===================================================================
   Part 1: the grpc client (src/applications/tari_node_controller/grpcclient.cpp)
   =================================================================== -/

/-- The observable outcome of one GetSyncInfo RPC round trip as seen by
grpcclient.cpp: whether the grpc Status was ok, and the tip_height and
local_height fields carried by the SyncInfoResponse. -/
structure GrpcCall where
  statusOk : Bool
  tipHeight : Nat
  localHeight : Nat

/-- Embeds grpcclient::max_height (grpcclient.cpp lines 12 to 23).  The
function performs GetSyncInfo; on an ok status it emits responsive(true)
and returns tip_height, otherwise it emits responsive(false) and returns 0.
The result pair is (returned height, emitted responsive signal). -/
def grpcclient.max_height (c : GrpcCall) : Nat × Bool :=
  if c.statusOk then (c.tipHeight, true) else (0, false)

/-- Embeds grpcclient::current_height (grpcclient.cpp lines 25 to 36); the
same shape as max_height but returning local_height on success. -/
def grpcclient.current_height (c : GrpcCall) : Nat × Bool :=
  if c.statusOk then (c.localHeight, true) else (0, false)

/- ===================================================================
   Part 2: basenode (src/applications/tari_node_controller/basenode.cpp)
   =================================================================== -/

/-- The mutable numeric state of a basenode object: the m_height,
m_percentage and m_responsive members of basenode.cpp.  The C++ percentage
is a double; the embedding idealises double arithmetic as exact rational
arithmetic. -/
structure BasenodeState where
  m_height : Nat
  m_percentage : ℚ
  m_responsive : Bool

/-- Embeds basenode::setPercentage (basenode.cpp lines 89 to 96): the member
is written only when the new value differs from the stored one (the C++
code compares with a relative machine epsilon, which exact rational
arithmetic renders as equality). -/
def basenode.setPercentage (st : BasenodeState) (p : ℚ) : BasenodeState :=
  if st.m_percentage = p then st else { st with m_percentage := p }

/-- Embeds basenode::setResponsive (basenode.cpp lines 98 to 105). -/
def basenode.setResponsive (st : BasenodeState) (r : Bool) : BasenodeState :=
  if st.m_responsive = r then st else { st with m_responsive := r }

/-- Embeds basenode::setHeight (basenode.cpp lines 80 to 87). -/
def basenode.setHeight (st : BasenodeState) (h : Nat) : BasenodeState :=
  if st.m_height = h then st else { st with m_height := h }

/-- Embeds basenode::updatePercentage (basenode.cpp lines 140 to 157).  The
client argument is none when m_client is null.  When a client is present
the function asks it for max_height; a zero answer makes it call
setResponsive(false), a non-zero answer makes it fetch current_height and
call setPercentage(current divided by max times 100).  The responsive
signal emitted inside the grpc calls is delivered through a queued
cross-thread connection, outside this member function, so only the value
component of each grpc call participates here. -/
def basenode.updatePercentage (st : BasenodeState) (client : Option GrpcCall) :
    BasenodeState :=
  match client with
  | none => basenode.setResponsive st false
  | some c =>
      let max := (grpcclient.max_height c).1
      if max = 0 then
        basenode.setResponsive st false
      else
        let current := (grpcclient.current_height c).1
        basenode.setPercentage st ((current : ℚ) / (max : ℚ) * 100)

/- ===================================================================
   Part 3: config (src/applications/tari_node_controller/config.cpp)
   =================================================================== -/

/-- A QString is embedded as its list of characters. -/
abbrev QStr := List Char

/-- Embeds QString::split with a single separator character; Qt keeps empty
parts, so splitting the empty string yields one empty part. -/
def qsplit (sep : Char) : QStr → List QStr
  | [] => [[]]
  | c :: rest =>
      if c = sep then [] :: qsplit sep rest
      else
        match qsplit sep rest with
        | [] => [[c]]
        | p :: ps => (c :: p) :: ps

/-- The name and address members of a basenode object, which are the only
members config::save reads and config::get_nodes writes. -/
structure BNode where
  name : QStr
  address : QStr

/-- The child tags of a BASENODE element that the get_nodes loop in
config.cpp distinguishes; every other tag name falls into its final else
branch and is embedded as OTHER. -/
inductive ConfigTag where
  | NAME
  | ADDRESS
  | PORT
  | OTHER

/-- One BASENODE element of the in-memory QDomDocument: its child elements
as (tag, text) pairs in document order. -/
structure BasenodeElem where
  children : List (ConfigTag × QStr)

/-- Embeds the inner loop of config::get_nodes (config.cpp lines 53 to 74):
the name, address and port variables start as default-constructed empty
QStrings and each recognised child tag overwrites the matching variable,
so a later duplicate tag wins. -/
def readProps : List (ConfigTag × QStr) → QStr × QStr × QStr → QStr × QStr × QStr
  | [], acc => acc
  | (t, txt) :: rest, (name, address, port) =>
      match t with
      | .NAME => readProps rest (txt, address, port)
      | .ADDRESS => readProps rest (name, txt, port)
      | .PORT => readProps rest (name, address, txt)
      | .OTHER => readProps rest (name, address, port)

/-- Embeds the per-element body of config::get_nodes (config.cpp lines 43
to 83): read the child properties, then build the node with
fulladdress equal to address append colon append port. -/
def readNode (e : BasenodeElem) : BNode :=
  let props := readProps e.children ([], [], [])
  { name := props.1, address := props.2.1 ++ ':' :: props.2.2 }

/-- Embeds config::get_nodes (config.cpp lines 38 to 85) applied to the
list of BASENODE elements of the stored document. -/
def config.get_nodes (doc : List BasenodeElem) : List BNode :=
  doc.map readNode

/-- Embeds the per-node body of config::save (config.cpp lines 100 to 117):
the address is split at colons, element 0 of the split becomes the ADDRESS
text and element 1 becomes the PORT text, and the children are appended in
the order NAME, ADDRESS, PORT. -/
def saveNode (n : BNode) : BasenodeElem :=
  let addressDetail := qsplit ':' n.address
  { children :=
      [(ConfigTag.NAME, n.name),
       (ConfigTag.ADDRESS, addressDetail.getD 0 []),
       (ConfigTag.PORT, addressDetail.getD 1 [])] }

/-- Embeds config::save (config.cpp lines 87 to 122): the document it
builds, and also stores into m_preferences, holds one BASENODE element per
node in order. -/
def config.save (nodes : List BNode) : List BasenodeElem :=
  nodes.map saveNode

/- ===================================================================
   Part 4: the documented status encoding of completed_transaction_get_status
   (src/base_layer/wallet_ffi/tari_wallet_ffi.h lines 1395 to 1420 and
    src/base_layer/wallet_ffi/wallet.h lines 264 to 278)
   =================================================================== -/

/-- The statuses a stored completed transaction can carry according to the
return-value table of completed_transaction_get_status in
tari_wallet_ffi.h (codes 0 to 6; code -1 stands for TxNullError and is the
answer for a null handle, not a stored status). -/
inductive TariTxStatus where
  | Completed
  | Broadcast
  | MinedUnconfirmed
  | Imported
  | Pending
  | Coinbase
  | MinedConfirmed

/-- The integer code of each status per the tari_wallet_ffi.h table. -/
def tariTxStatusCode : TariTxStatus → Int
  | .Completed => 0
  | .Broadcast => 1
  | .MinedUnconfirmed => 2
  | .Imported => 3
  | .Pending => 4
  | .Coinbase => 5
  | .MinedConfirmed => 6

/-- The name of each status exactly as the tari_wallet_ffi.h table spells
it. -/
def tariTxStatusName : TariTxStatus → String
  | .Completed => "Completed"
  | .Broadcast => "Broadcast"
  | .MinedUnconfirmed => "MinedUnconfirmed"
  | .Imported => "Imported"
  | .Pending => "Pending"
  | .Coinbase => "Coinbase"
  | .MinedConfirmed => "MinedConfirmed"

/-- All statuses of the tari_wallet_ffi.h table in code order. -/
def tariAllStatuses : List TariTxStatus :=
  [.Completed, .Broadcast, .MinedUnconfirmed, .Imported, .Pending, .Coinbase,
   .MinedConfirmed]

/-- Embeds completed_transaction_get_status per its documentation: a null
handle yields -1 (TxNullError, with the error out-parameter set), a live
handle yields the code of the transaction status it carries. -/
def completed_transaction_get_status (handle : Option TariTxStatus) : Int :=
  match handle with
  | none => -1
  | some s => tariTxStatusCode s

/-- The status names of the larger table that wallet.h (lines 264 to 278)
documents for the same accessor: codes 0 to 9, extending the
tari_wallet_ffi.h table with Rejected, FauxUnconfirmed and FauxConfirmed. -/
def walletHStatusNames : List String :=
  ["Completed", "Broadcast", "MinedUnconfirmed", "Imported", "Pending",
   "Coinbase", "MinedConfirmed", "Rejected", "FauxUnconfirmed",
   "FauxConfirmed"]

/-- The eight status names the specification text lists for the status
field of a transaction. -/
def specClaimedStatusNames : List String :=
  ["Pending", "Broadcast", "MinedUnconfirmed", "MinedConfirmed", "Imported",
   "Coinbase", "Rejected", "Cancelled"]

/- ===================================================================
   Part 5: the wallet transaction core.  The implementation of this core is
   not part of this repository (the FFI headers only declare it), so the
   definitions below are modelled from the specification text, section by
   section, as their doc comments record.
   =================================================================== -/

/-- Modelled from the spec: the transaction status field of the data model
section, one of Pending, Broadcast, MinedUnconfirmed, MinedConfirmed,
Imported, Coinbase, Rejected, Cancelled. -/
inductive TxStatus where
  | Pending
  | Broadcast
  | MinedUnconfirmed
  | MinedConfirmed
  | Imported
  | Coinbase
  | Rejected
  | Cancelled
deriving DecidableEq

/-- Modelled from the spec: the direction field of a transaction. -/
inductive TxDirection where
  | Inbound
  | Outbound

/-- Modelled from the spec: the cancellation reason recorded on a cancelled
transaction. -/
inductive CancelReason where
  | Unknown
  | UserCancelled
  | Timeout
  | DoubleSpend
  | Orphan
  | TimeLocked
  | InvalidTransaction
  | AbandonedCoinbase

/-- Modelled from the spec: the central transaction entity of the data
model section, restricted to the fields the claims below exercise. -/
structure SpecTransaction where
  id : Nat
  direction : TxDirection
  amount : Nat
  fee : Nat
  message : String
  timestamp : Nat
  status : TxStatus
  cancellationReason : Option CancelReason
  confirmations : Nat

/-- Modelled from the spec: the error taxonomy of the error handling
section. -/
inductive WalletError where
  | notFound
  | duplicateId
  | invalidStateTransition
  | insufficientFunds
  | invalidAddress
  | recoveryAlreadyInProgress
  | requestSuperseded
  | networkUnavailable
  | cancelled

/-- Modelled from the spec: the ledger store holds the four keyed
transaction collections pending-inbound, pending-outbound, completed and
cancelled that the four FFI collection getters return. -/
structure LedgerStore where
  pendingInbound : List SpecTransaction
  pendingOutbound : List SpecTransaction
  completed : List SpecTransaction
  cancelled : List SpecTransaction

/-- The names of the four collections of the ledger store. -/
inductive Collection where
  | pendingInbound
  | pendingOutbound
  | completed
  | cancelled
deriving DecidableEq

/-- The empty ledger store a fresh wallet starts from. -/
def emptyStore : LedgerStore :=
  { pendingInbound := [], pendingOutbound := [], completed := [],
    cancelled := [] }

/-- Reads one collection of the store. -/
def coll (s : LedgerStore) : Collection → List SpecTransaction
  | .pendingInbound => s.pendingInbound
  | .pendingOutbound => s.pendingOutbound
  | .completed => s.completed
  | .cancelled => s.cancelled

/-- Replaces one collection of the store. -/
def setColl (s : LedgerStore) : Collection → List SpecTransaction → LedgerStore
  | .pendingInbound, l => { s with pendingInbound := l }
  | .pendingOutbound, l => { s with pendingOutbound := l }
  | .completed, l => { s with completed := l }
  | .cancelled, l => { s with cancelled := l }

/-- Decides whether a collection holds a transaction with the given id. -/
def containsId (l : List SpecTransaction) (i : Nat) : Bool :=
  l.any (fun t => t.id == i)

/-- Removes every record with the given id from a collection. -/
def removeId (l : List SpecTransaction) (i : Nat) : List SpecTransaction :=
  l.filter (fun t => t.id != i)

/-- Decides whether any of the four collections holds the id, meaning the
wallet holds the transaction at all. -/
def heldByWallet (s : LedgerStore) (i : Nat) : Bool :=
  containsId s.pendingInbound i || containsId s.pendingOutbound i ||
  containsId s.completed i || containsId s.cancelled i

/-- Counts how many of the four collections hold the given id. -/
def occupancy (s : LedgerStore) (i : Nat) : Nat :=
  (containsId s.pendingInbound i).toNat +
  (containsId s.pendingOutbound i).toNat +
  (containsId s.completed i).toNat +
  (containsId s.cancelled i).toNat

/-- Modelled from the spec: the store insert operation of the ledger store
section fails with DuplicateId when the id is already present in any
collection and otherwise adds the record to the chosen collection. -/
def insertTx (s : LedgerStore) (c : Collection) (tx : SpecTransaction) :
    Except WalletError LedgerStore :=
  if heldByWallet s tx.id then .error .duplicateId
  else .ok (setColl s c (tx :: coll s c))

/-- Modelled from the spec: the store move operation of the ledger store
section: moving an id found in the source collection carries its record to
the destination, moving an id absent from the source but present in the
destination succeeds idempotently without change, and anything else fails
with NotFound. -/
def moveTx (s : LedgerStore) (i : Nat) (src dst : Collection) :
    Except WalletError LedgerStore :=
  match (coll s src).find? (fun t => t.id == i) with
  | some tx =>
      let s1 := setColl s src (removeId (coll s src) i)
      .ok (setColl s1 dst (tx :: coll s1 dst))
  | none =>
      if containsId (coll s dst) i then .ok s else .error .notFound

/-- Modelled from the spec: an in-place status refresh of the record with
the given id, used by the state machine section; it rewrites the status
field and touches no id. -/
def updateStatus (s : LedgerStore) (i : Nat) (st : TxStatus) : LedgerStore :=
  let g := fun (t : SpecTransaction) =>
    if t.id = i then { t with status := st } else t
  { pendingInbound := s.pendingInbound.map g,
    pendingOutbound := s.pendingOutbound.map g,
    completed := s.completed.map g,
    cancelled := s.cancelled.map g }

/-- Finds the collection and record holding the given id, searching the
collections in the fixed order pending-inbound, pending-outbound,
completed, cancelled. -/
def findTx (s : LedgerStore) (i : Nat) : Option (Collection × SpecTransaction) :=
  match s.pendingInbound.find? (fun t => t.id == i) with
  | some tx => some (.pendingInbound, tx)
  | none =>
    match s.pendingOutbound.find? (fun t => t.id == i) with
    | some tx => some (.pendingOutbound, tx)
    | none =>
      match s.completed.find? (fun t => t.id == i) with
      | some tx => some (.completed, tx)
      | none =>
        match s.cancelled.find? (fun t => t.id == i) with
        | some tx => some (.cancelled, tx)
        | none => none

/-- Modelled from the spec: the legal transitions of the transaction state
machine section: the happy path Pending to Broadcast to MinedUnconfirmed
to MinedConfirmed, the failure edges Pending to Rejected or Cancelled,
Broadcast to Cancelled or Rejected, MinedUnconfirmed to Rejected, and the
re-org edge MinedConfirmed to MinedUnconfirmed. -/
def legalTransition : TxStatus → TxStatus → Bool
  | .Pending, .Broadcast => true
  | .Broadcast, .MinedUnconfirmed => true
  | .MinedUnconfirmed, .MinedConfirmed => true
  | .Pending, .Rejected => true
  | .Pending, .Cancelled => true
  | .Broadcast, .Cancelled => true
  | .Broadcast, .Rejected => true
  | .MinedUnconfirmed, .Rejected => true
  | .MinedConfirmed, .MinedUnconfirmed => true
  | _, _ => false

/-- Modelled from the spec: asking the state machine to take a transition;
an illegal transition fails with InvalidStateTransition, a legal one
rewrites the stored status. -/
def applyTransition (s : LedgerStore) (i : Nat) (tgt : TxStatus) :
    Except WalletError LedgerStore :=
  match findTx s i with
  | none => .error .notFound
  | some (_, tx) =>
      if legalTransition tx.status tgt then .ok (updateStatus s i tgt)
      else .error .invalidStateTransition

/-- The store an operation leaves behind: the new store on success, the
old store untouched on error. -/
def resultingStore (s : LedgerStore) (r : Except WalletError LedgerStore) :
    LedgerStore :=
  match r with
  | .ok s2 => s2
  | .error _ => s

/-- Modelled from the spec: cancelling a transaction per the concurrency
section: cancelling an id already in the cancelled collection is a no-op
that reports success, an unknown id fails with NotFound, and otherwise the
cancellation goes through the state machine, so a state that cannot reach
Cancelled fails with InvalidStateTransition and a cancellable one is
restatused and moved to the cancelled collection. -/
def cancelTransaction (s : LedgerStore) (i : Nat) :
    Except WalletError LedgerStore :=
  if containsId s.cancelled i then .ok s
  else
    match findTx s i with
    | none => .error .notFound
    | some (c, tx) =>
        if legalTransition tx.status .Cancelled then
          moveTx (updateStatus s i .Cancelled) i c .cancelled
        else .error .invalidStateTransition

/-- Modelled from the spec: an unspent output with a value, a maturity
height and an encumbrance mark, as the balance calculator section uses
it. -/
structure Utxo where
  value : Nat
  maturityHeight : Nat
  encumbered : Bool

/-- Modelled from the spec: the four derived balance figures. -/
structure Balance where
  available : Nat
  timeLocked : Nat
  pendingIncoming : Nat
  pendingOutgoing : Nat

/-- Decides whether a status counts as pending for the balance calculator,
that is Pending or Broadcast. -/
def pendingStatus : TxStatus → Bool
  | .Pending => true
  | .Broadcast => true
  | _ => false

/-- Modelled from the spec: the balance calculator section: available sums
unencumbered matured outputs, time-locked sums outputs maturing above the
tip, pending-incoming sums amounts of Pending or Broadcast inbound
transactions, pending-outgoing sums amount plus fee of Pending or
Broadcast outbound transactions. -/
def computeBalance (tip : Nat) (utxos : List Utxo) (s : LedgerStore) : Balance :=
  { available :=
      ((utxos.filter (fun u => !u.encumbered && u.maturityHeight ≤ tip)).map
        (fun u => u.value)).sum,
    timeLocked :=
      ((utxos.filter (fun u => tip < u.maturityHeight)).map
        (fun u => u.value)).sum,
    pendingIncoming :=
      ((s.pendingInbound.filter (fun t => pendingStatus t.status)).map
        (fun t => t.amount)).sum,
    pendingOutgoing :=
      ((s.pendingOutbound.filter (fun t => pendingStatus t.status)).map
        (fun t => t.amount + t.fee)).sum }

/-- Modelled from the spec: the value and the int error-code out-parameter
a host-facing FFI accessor hands back. -/
structure FfiReturn (α : Type) where
  value : α
  errorCode : Int

/-- Modelled from the spec: the non-zero integer code each wallet error is
reported as through the error out-parameter. -/
def errorCodeOf : WalletError → Int
  | .notFound => 1
  | .duplicateId => 2
  | .invalidStateTransition => 3
  | .insufficientFunds => 4
  | .invalidAddress => 5
  | .recoveryAlreadyInProgress => 6
  | .requestSuperseded => 7
  | .networkUnavailable => 8
  | .cancelled => 9

/-- Modelled from the spec: the uniform failure signal of the external
interface section: an accessor returns its value with error code zero on
success, and the null or empty or zero value of its type together with the
non-zero code of the error on failure.  The wrapper is a total function,
so no language-level exception can escape it. -/
def ffiReturn {α : Type} (nullValue : α) (r : Except WalletError α) :
    FfiReturn α :=
  match r with
  | .ok v => { value := v, errorCode := 0 }
  | .error e => { value := nullValue, errorCode := errorCodeOf e }

/-- Modelled from the spec: the host-facing cancel accessor: it runs the
core cancel operation, keeps the store untouched on error, and reports a
success flag through the uniform FFI return convention. -/
def wallet_cancel_pending_transaction (s : LedgerStore) (i : Nat) :
    LedgerStore × FfiReturn Bool :=
  let r := cancelTransaction s i
  (resultingStore s r, ffiReturn false (r.map (fun _ => true)))

/-- Modelled from the spec: the store states reachable from the empty store
through the store mutations: successful inserts, successful moves, status
refreshes and cancellations. -/
inductive Reachable : LedgerStore → Prop where
  | empty : Reachable emptyStore
  | insert {s s' : LedgerStore} {c : Collection} {tx : SpecTransaction} :
      Reachable s → insertTx s c tx = .ok s' → Reachable s'
  | move {s s' : LedgerStore} {i : Nat} {src dst : Collection} :
      Reachable s → moveTx s i src dst = .ok s' → Reachable s'
  | update {s : LedgerStore} {i : Nat} {st : TxStatus} :
      Reachable s → Reachable (updateStatus s i st)
  | cancel {s s' : LedgerStore} {i : Nat} :
      Reachable s → cancelTransaction s i = .ok s' → Reachable s'

/- ===================================================================
   Part 6: the validation coordinator (modelled from the spec).
   =================================================================== -/

/-- Modelled from the spec: what one validation result reports about a
transaction, namely a freshly observed status and a confirmation count. -/
structure ValidationResult where
  status : TxStatus
  confirmations : Nat

/-- Modelled from the spec: the progression rank of a status along the
lifecycle, used to decide which of two validation results is the more
current one. -/
def statusRank : TxStatus → Nat
  | .Pending => 0
  | .Broadcast => 1
  | .MinedUnconfirmed => 2
  | .MinedConfirmed => 3
  | .Imported => 4
  | .Coinbase => 5
  | .Rejected => 6
  | .Cancelled => 7

/-- Modelled from the spec: result a supersedes result b when a carries a
more advanced status, or the same status with a higher confirmation
count. -/
abbrev supersedes (a b : ValidationResult) : Prop :=
  statusRank b.status < statusRank a.status ∨
  (statusRank a.status = statusRank b.status ∧ b.confirmations < a.confirmations)

/-- Modelled from the spec: the validation coordinator section: a result is
applied only when it supersedes the transaction state already recorded;
a superseded result is discarded (last-validated-wins per transaction). -/
def applyValidationResult (cur r : ValidationResult) : ValidationResult :=
  if supersedes r cur then r else cur

/- ===================================================================
   Part 7: the recovery coordinator (modelled from the spec).
   =================================================================== -/

/-- The recovery progress events with their two numeric arguments, exactly
the RecoveryEvent enumeration that the wallet_start_recovery documentation
in wallet.h lists. -/
inductive RecoveryEvent where
  | connectingToBaseNode
  | connectedToBaseNode
  | connectionToBaseNodeFailed (retries limit : Nat)
  | progress (current total : Nat)
  | completed (utxosRecovered valueRecovered : Nat)
  | scanningRoundFailed (retries limit : Nat)
  | recoveryFailed

/-- Modelled from the spec: the internal states of one recovery session:
about to announce a connection attempt, waiting for the attempt outcome,
scanning with a current block position and a round-retry count, about to
emit the terminal failure, finished, or failed. -/
inductive RecoveryState where
  | idle (retries : Nat)
  | attempting (retries : Nat)
  | scanning (current : Nat) (scanRetries : Nat)
  | failing
  | done
  | failed

/-- Modelled from the spec: the recovery coordinator section: one callback
emission of a session running against a chain of the given total block
count under the given retry limit.  Connection attempts announce
themselves with ConnectingToBaseNode and may fail with
ConnectionToBaseNodeFailed up to the limit; a connection moves the session
to scanning; scanning emits Progress events with a strictly growing
current below the total, may fail a round up to the limit, and ends with
the terminal Completed; an exhausted retry budget emits the terminal
RecoveryFailed. -/
inductive RecoveryStep (total retryLimit : Nat) :
    RecoveryState → RecoveryEvent → RecoveryState → Prop where
  | announce (r : Nat) :
      RecoveryStep total retryLimit (.idle r) .connectingToBaseNode
        (.attempting r)
  | connected (r : Nat) :
      RecoveryStep total retryLimit (.attempting r) .connectedToBaseNode
        (.scanning 0 0)
  | connectFailedRetry (r : Nat) (h : r + 1 ≤ retryLimit) :
      RecoveryStep total retryLimit (.attempting r)
        (.connectionToBaseNodeFailed (r + 1) retryLimit) (.idle (r + 1))
  | connectFailedExhausted (r : Nat) (h : retryLimit < r + 1) :
      RecoveryStep total retryLimit (.attempting r)
        (.connectionToBaseNodeFailed (r + 1) retryLimit) .failing
  | progressStep (c c' sr : Nat) (h1 : c < c') (h2 : c' < total) :
      RecoveryStep total retryLimit (.scanning c sr) (.progress c' total)
        (.scanning c' sr)
  | scanFailedRetry (c sr : Nat) (h : sr + 1 ≤ retryLimit) :
      RecoveryStep total retryLimit (.scanning c sr)
        (.scanningRoundFailed (sr + 1) retryLimit) (.scanning c (sr + 1))
  | scanFailedExhausted (c sr : Nat) (h : retryLimit < sr + 1) :
      RecoveryStep total retryLimit (.scanning c sr)
        (.scanningRoundFailed (sr + 1) retryLimit) .failing
  | completeStep (c sr u v : Nat) :
      RecoveryStep total retryLimit (.scanning c sr) (.completed u v) .done
  | failEmit :
      RecoveryStep total retryLimit .failing .recoveryFailed .failed

/-- The reflexive-transitive closure of recovery steps, collecting the
emitted events in order. -/
inductive RecoveryTrace (total retryLimit : Nat) :
    RecoveryState → List RecoveryEvent → RecoveryState → Prop where
  | nil (s : RecoveryState) : RecoveryTrace total retryLimit s [] s
  | cons {s s' s'' : RecoveryState} {e : RecoveryEvent}
      {tr : List RecoveryEvent} :
      RecoveryStep total retryLimit s e s' →
      RecoveryTrace total retryLimit s' tr s'' →
      RecoveryTrace total retryLimit s (e :: tr) s''

/-- Decides whether an event belongs to one of the failure branches of the
recovery protocol. -/
def isFailureEvent : RecoveryEvent → Bool
  | .connectionToBaseNodeFailed _ _ => true
  | .scanningRoundFailed _ _ => true
  | .recoveryFailed => true
  | _ => false

/-- Decides whether a session state is terminal, meaning the attempt has
ended. -/
def terminalRecoveryState : RecoveryState → Bool
  | .done => true
  | .failed => true
  | _ => false

/-- Checks that a Progress current argument grows strictly past the
previous one, when a previous one exists. -/
def checkProgressLast (last : Option Nat) (c : Nat) : Bool :=
  match last with
  | none => true
  | some l => decide (l < c)

/-- Checks the tail of the claimed event pattern: zero or more Progress
events whose current argument grows strictly past the optional previous
current and stays below the total, ended by a terminal Completed event. -/
def checkProgressEvents (last : Option Nat) : List RecoveryEvent → Bool
  | [] => false
  | e :: rest =>
      match e with
      | .progress c t =>
          checkProgressLast last c && decide (c < t) &&
          checkProgressEvents (some c) rest
      | .completed _ _ => rest.isEmpty
      | _ => false

/-- Checks the claimed pattern after its first ConnectingToBaseNode event:
further ConnectingToBaseNode repetitions, then exactly one
ConnectedToBaseNode, then the progress tail. -/
def matchesAfterFirstConnecting : List RecoveryEvent → Bool
  | [] => false
  | e :: rest =>
      match e with
      | .connectingToBaseNode => matchesAfterFirstConnecting rest
      | .connectedToBaseNode => checkProgressEvents none rest
      | _ => false

/-- Checks the full event pattern the claim states for a recovery attempt:
one or more ConnectingToBaseNode events, exactly one ConnectedToBaseNode,
zero or more monotone Progress events below the total, and a terminal
Completed. -/
def matchesRecoveryPattern : List RecoveryEvent → Bool
  | [] => false
  | e :: rest =>
      match e with
      | .connectingToBaseNode => matchesAfterFirstConnecting rest
      | _ => false

/- ===================================================================
   Part 8: concrete sample values used to instantiate the theorems below.
   =================================================================== -/

/-- A sample mined-confirmed outbound transaction. -/
def sampleConfirmedTx : SpecTransaction :=
  { id := 7, direction := .Outbound, amount := 1000, fee := 25,
    message := "m", timestamp := 11, status := .MinedConfirmed,
    cancellationReason := none, confirmations := 3 }

/-- A sample cancelled transaction. -/
def sampleCancelledTx : SpecTransaction :=
  { id := 4, direction := .Outbound, amount := 500, fee := 20,
    message := "n", timestamp := 12, status := .Cancelled,
    cancellationReason := some .UserCancelled, confirmations := 0 }

/-- A sample store holding one completed and one cancelled transaction. -/
def sampleStore : LedgerStore :=
  { pendingInbound := [], pendingOutbound := [],
    completed := [sampleConfirmedTx], cancelled := [sampleCancelledTx] }

/-- The store obtained by inserting the sample confirmed transaction into
the completed collection of the empty store. -/
def sampleInsertStore : LedgerStore :=
  { pendingInbound := [], pendingOutbound := [],
    completed := [sampleConfirmedTx], cancelled := [] }

/- ===================================================================
   Theorems.  Shared helper lemmas come first, then one theorem per claim
   with its witness or counterexample.
   =================================================================== -/

theorem setResponsive_responsive (st : BasenodeState) (b : Bool) :
    (basenode.setResponsive st b).m_responsive = b := by
  unfold basenode.setResponsive
  split <;> simp_all

theorem setResponsive_percentage (st : BasenodeState) (b : Bool) :
    (basenode.setResponsive st b).m_percentage = st.m_percentage := by
  unfold basenode.setResponsive
  split <;> rfl

theorem setPercentage_percentage (st : BasenodeState) (p : ℚ) :
    (basenode.setPercentage st p).m_percentage = p := by
  unfold basenode.setPercentage
  split <;> simp_all

/-- C8: basenode::updatePercentage never divides by zero: with a client
present, a zero max_height answer makes it set responsive to false and
leave the stored percentage alone, and a non-zero answer m together with a
current_height answer c makes it set the percentage to c divided by m
times 100. -/
theorem updatePercentage_no_div_by_zero (st : BasenodeState) (c : GrpcCall) :
    ((grpcclient.max_height c).1 = 0 →
      (basenode.updatePercentage st (some c)).m_responsive = false ∧
      (basenode.updatePercentage st (some c)).m_percentage = st.m_percentage) ∧
    (∀ m : Nat, (grpcclient.max_height c).1 = m → m ≠ 0 →
      (basenode.updatePercentage st (some c)).m_percentage =
        ((grpcclient.current_height c).1 : ℚ) / (m : ℚ) * 100) := by
  constructor
  · intro h0
    unfold basenode.updatePercentage
    simp only [h0]
    exact ⟨setResponsive_responsive st false, setResponsive_percentage st false⟩
  · intro m hm hne
    unfold basenode.updatePercentage
    simp only [hm, if_neg hne]
    exact setPercentage_percentage st _

/-- Witness for C8 at a failing call (max_height answers 0) and at a
successful call with tip 200 and local height 50. -/
theorem updatePercentage_no_div_by_zero_witness :
    (basenode.updatePercentage
      { m_height := 0, m_percentage := 5, m_responsive := true }
      (some { statusOk := false, tipHeight := 7, localHeight := 3 })).m_responsive
        = false ∧
    (basenode.updatePercentage
      { m_height := 0, m_percentage := 5, m_responsive := true }
      (some { statusOk := false, tipHeight := 7, localHeight := 3 })).m_percentage
        = 5 ∧
    (basenode.updatePercentage
      { m_height := 0, m_percentage := 5, m_responsive := true }
      (some { statusOk := true, tipHeight := 200, localHeight := 50 })).m_percentage
        = 25 := by
  refine ⟨((updatePercentage_no_div_by_zero
            { m_height := 0, m_percentage := 5, m_responsive := true }
            { statusOk := false, tipHeight := 7, localHeight := 3 }).1
              (by rfl)).1,
          ((updatePercentage_no_div_by_zero
            { m_height := 0, m_percentage := 5, m_responsive := true }
            { statusOk := false, tipHeight := 7, localHeight := 3 }).1
              (by rfl)).2,
          ?_⟩
  have h := (updatePercentage_no_div_by_zero
    { m_height := 0, m_percentage := 5, m_responsive := true }
    { statusOk := true, tipHeight := 200, localHeight := 50 }).2 200 rfl
    (by decide)
  rw [h]
  norm_num [grpcclient.current_height]

/-- C10: each height getter of grpcclient returns 0 and signals
responsive(false) when the RPC status is not ok, returns the node-reported
height and signals responsive(true) when it is ok, and consequently a
returned 0 does not tell a failed RPC apart from a genuine zero height. -/
theorem grpc_height_zero_ambiguous :
    (∀ c : GrpcCall, c.statusOk = false →
       grpcclient.current_height c = (0, false) ∧
       grpcclient.max_height c = (0, false)) ∧
    (∀ c : GrpcCall, c.statusOk = true →
       grpcclient.current_height c = (c.localHeight, true) ∧
       grpcclient.max_height c = (c.tipHeight, true)) ∧
    (∃ c1 c2 : GrpcCall, c1.statusOk = true ∧ c2.statusOk = false ∧
       (grpcclient.current_height c1).1 = 0 ∧
       (grpcclient.current_height c2).1 = 0) := by
  refine ⟨?_, ?_, ?_⟩
  · intro c h
    simp [grpcclient.current_height, grpcclient.max_height, h]
  · intro c h
    simp [grpcclient.current_height, grpcclient.max_height, h]
  · exact ⟨{ statusOk := true, tipHeight := 9, localHeight := 0 },
           { statusOk := false, tipHeight := 9, localHeight := 5 },
           rfl, rfl, rfl, rfl⟩

/-- Witness for C10 on one failing and one successful call. -/
theorem grpc_height_zero_ambiguous_witness :
    grpcclient.current_height { statusOk := false, tipHeight := 9, localHeight := 5 }
      = (0, false) ∧
    grpcclient.max_height { statusOk := true, tipHeight := 9, localHeight := 5 }
      = (9, true) := by
  exact ⟨(grpc_height_zero_ambiguous.1 _ rfl).1,
         (grpc_height_zero_ambiguous.2.1 _ rfl).2⟩

/-- C6 counterexample: the status set the claim names is not the status set
the completed_transaction_get_status table documents: the claim lists
Cancelled, which no documented code stands for (in either header variant),
and the documented set contains Completed, which the claim omits. -/
theorem completed_status_set_counterexample :
    specClaimedStatusNames.contains "Cancelled" = true ∧
    (tariAllStatuses.map tariTxStatusName).contains "Cancelled" = false ∧
    walletHStatusNames.contains "Cancelled" = false ∧
    (tariAllStatuses.map tariTxStatusName).contains "Completed" = true ∧
    specClaimedStatusNames.contains "Completed" = false := by
  refine ⟨?_, ?_, ?_, ?_, ?_⟩ <;> decide

/-- C6 amended: for every handle, completed_transaction_get_status returns
-1 exactly on the null handle and otherwise the documented code, between 0
and 6, of the status the transaction carries; the statuses a stored
transaction can carry are exactly the seven named Completed, Broadcast,
MinedUnconfirmed, Imported, Pending, Coinbase, MinedConfirmed. -/
theorem completed_status_encoding :
    (∀ h : Option TariTxStatus,
        (h = none ∧ completed_transaction_get_status h = -1) ∨
        (∃ s : TariTxStatus, h = some s ∧
           completed_transaction_get_status h = tariTxStatusCode s ∧
           0 ≤ tariTxStatusCode s ∧ tariTxStatusCode s ≤ 6)) ∧
    tariAllStatuses.map tariTxStatusName =
      ["Completed", "Broadcast", "MinedUnconfirmed", "Imported", "Pending",
       "Coinbase", "MinedConfirmed"] := by
  constructor
  · intro h
    match h with
    | none => exact .inl ⟨rfl, rfl⟩
    | some s =>
        refine .inr ⟨s, rfl, rfl, ?_, ?_⟩ <;> cases s <;> decide
  · rfl

theorem errorCodeOf_ne_zero (e : WalletError) : errorCodeOf e ≠ 0 := by
  cases e <;> decide

/-- C7: the uniform FFI failure signal: a failing call comes back as the
null value of the result type together with the non-zero code of its
error, a successful call comes back as the value with code zero, and the
wrapper is a total function, so no language-level exception reaches the
host. -/
theorem ffi_error_convention :
    (∀ e : WalletError, errorCodeOf e ≠ 0) ∧
    (∀ (α : Type) (nullValue : α) (r : Except WalletError α) (e : WalletError),
        r = .error e →
        (ffiReturn nullValue r).value = nullValue ∧
        (ffiReturn nullValue r).errorCode = errorCodeOf e ∧
        (ffiReturn nullValue r).errorCode ≠ 0) ∧
    (∀ (α : Type) (nullValue : α) (r : Except WalletError α) (v : α),
        r = .ok v →
        (ffiReturn nullValue r).value = v ∧
        (ffiReturn nullValue r).errorCode = 0) := by
  refine ⟨errorCodeOf_ne_zero, ?_, ?_⟩
  · intro α nullValue r e hr
    subst hr
    exact ⟨rfl, rfl, errorCodeOf_ne_zero e⟩
  · intro α nullValue r v hr
    subst hr
    exact ⟨rfl, rfl⟩

/-- Witness for C7 at a failing and at a successful boolean accessor
result. -/
theorem ffi_error_convention_witness :
    (ffiReturn false (Except.error WalletError.notFound)).value = false ∧
    (ffiReturn false (Except.error WalletError.notFound)).errorCode ≠ 0 ∧
    (ffiReturn false (Except.ok true)).value = true ∧
    (ffiReturn false (Except.ok true)).errorCode = 0 := by
  refine ⟨(ffi_error_convention.2.1 Bool false _ WalletError.notFound rfl).1,
          (ffi_error_convention.2.1 Bool false _ WalletError.notFound rfl).2.2,
          (ffi_error_convention.2.2 Bool false _ true rfl).1,
          (ffi_error_convention.2.2 Bool false _ true rfl).2⟩

theorem qsplit_no_sep (sep : Char) (l : QStr) (h : sep ∉ l) :
    qsplit sep l = [l] := by
  induction l with
  | nil => rfl
  | cons c rest ih =>
      have hc : ¬ c = sep := fun he => h (he ▸ List.mem_cons_self c rest)
      have hr : sep ∉ rest := fun hm => h (List.mem_cons_of_mem _ hm)
      simp [qsplit, hc, ih hr]

theorem qsplit_append (sep : Char) (a b : QStr) (ha : sep ∉ a) :
    qsplit sep (a ++ sep :: b) = a :: qsplit sep b := by
  induction a with
  | nil => simp [qsplit]
  | cons c rest ih =>
      have hc : ¬ c = sep := fun he => ha (he ▸ List.mem_cons_self c rest)
      have hr : sep ∉ rest := fun hm => ha (List.mem_cons_of_mem _ hm)
      simp [qsplit, hc, ih hr]

theorem count_one_decomp (l : QStr) (h : l.count ':' = 1) :
    ∃ a b : QStr, l = a ++ ':' :: b ∧ ':' ∉ a ∧ ':' ∉ b := by
  induction l with
  | nil => simp at h
  | cons c rest ih =>
      by_cases hc : c = ':'
      · subst hc
        rw [List.count_cons_self] at h
        have h0 : rest.count ':' = 0 := by omega
        refine ⟨[], rest, rfl, by simp, ?_⟩
        exact (List.count_eq_zero.mp h0)
      · have h1 : rest.count ':' = 1 := by
          rw [List.count_cons_of_ne (Ne.symm hc)] at h
          exact h
        obtain ⟨a, b, he, ha, hb⟩ := ih h1
        refine ⟨c :: a, b, by simp [he], ?_, hb⟩
        intro hm
        rcases List.mem_cons.mp hm with h2 | h2
        · exact hc h2.symm
        · exact ha h2

theorem readNode_saveNode (n : BNode) (h : n.address.count ':' = 1) :
    readNode (saveNode n) = n := by
  obtain ⟨a, b, he, ha, hb⟩ := count_one_decomp n.address h
  have hs : qsplit ':' n.address = [a, b] := by
    rw [he, qsplit_append ':' a b ha, qsplit_no_sep ':' b hb]
  simp only [readNode, saveNode, hs, List.getD, readProps]
  cases n with
  | mk nm ad => simp_all

/-- C9: saving any node list whose addresses hold exactly one colon and
reading the document back yields the same nodes, with the same names and
addresses, in the same order and number. -/
theorem config_save_roundtrip (nodes : List BNode)
    (h : ∀ n ∈ nodes, n.address.count ':' = 1) :
    config.get_nodes (config.save nodes) = nodes ∧
    (config.get_nodes (config.save nodes)).length = nodes.length := by
  have key : config.get_nodes (config.save nodes) = nodes := by
    induction nodes with
    | nil => rfl
    | cons n rest ih =>
        have h1 := h n (List.mem_cons_self n rest)
        have h2 : ∀ m ∈ rest, m.address.count ':' = 1 :=
          fun m hm => h m (List.mem_cons_of_mem _ hm)
        have ih2 := ih h2
        simp only [config.get_nodes, config.save, List.map_cons] at ih2 ⊢
        rw [readNode_saveNode n h1]
        rw [List.map_map] at ih2 ⊢
        rw [ih2]
  exact ⟨key, by rw [key]⟩

/-- Witness for C9 on a one-node list with address 127.0.0.1:18142. -/
theorem config_save_roundtrip_witness :
    config.get_nodes (config.save
      [{ name := "alpha".toList, address := "127.0.0.1:18142".toList }]) =
      [{ name := "alpha".toList, address := "127.0.0.1:18142".toList }] := by
  exact (config_save_roundtrip _ (by decide)).1

theorem statusRank_injective (a b : TxStatus) (h : statusRank a = statusRank b) :
    a = b := by
  cases a <;> cases b <;> first | rfl | (exfalso; simp [statusRank] at h)

theorem supersedes_total_eq (a b : ValidationResult)
    (hab : ¬ supersedes a b) (hba : ¬ supersedes b a) : a = b := by
  rcases Nat.lt_trichotomy (statusRank a.status) (statusRank b.status) with h | h | h
  · exact absurd (Or.inl h) hba
  · rcases Nat.lt_trichotomy a.confirmations b.confirmations with hc | hc | hc
    · exact absurd (Or.inr ⟨h.symm, hc⟩) hba
    · have hs := statusRank_injective _ _ h
      cases a; cases b; simp_all
    · exact absurd (Or.inr ⟨h, hc⟩) hab
  · exact absurd (Or.inl h) hab

theorem supersedes_trans (a b c : ValidationResult)
    (h1 : supersedes a b) (h2 : supersedes b c) : supersedes a c := by
  rcases h1 with h1 | ⟨h1e, h1c⟩ <;> rcases h2 with h2 | ⟨h2e, h2c⟩
  · exact Or.inl (Nat.lt_trans h2 h1)
  · exact Or.inl (h2e ▸ h1)
  · exact Or.inl (h1e.symm ▸ h2)
  · exact Or.inr ⟨h1e.trans h2e, Nat.lt_trans h2c h1c⟩

theorem supersedes_asymm (a b : ValidationResult) (h : supersedes a b) :
    ¬ supersedes b a := by
  rcases h with h | ⟨he, hc⟩ <;> rintro (h2 | ⟨he2, hc2⟩)
  · exact Nat.lt_asymm h h2
  · exact Nat.ne_of_lt h he2
  · exact Nat.ne_of_lt h2 he
  · exact Nat.lt_asymm hc hc2

theorem applyValidationResult_pos {cur r : ValidationResult}
    (h : supersedes r cur) : applyValidationResult cur r = r := by
  unfold applyValidationResult
  exact if_pos h

theorem applyValidationResult_neg {cur r : ValidationResult}
    (h : ¬ supersedes r cur) : applyValidationResult cur r = cur := by
  unfold applyValidationResult
  exact if_neg h

/-- C3: applying two validation results concerning the same transaction in
either order leaves the same final state: the more current result, the one
with the more advanced status or higher confirmation count, wins and a
superseded result is never applied. -/
theorem validation_order_independent (cur r1 r2 : ValidationResult) :
    applyValidationResult (applyValidationResult cur r1) r2 =
    applyValidationResult (applyValidationResult cur r2) r1 := by
  by_cases h1 : supersedes r1 cur
  · by_cases h2 : supersedes r2 cur
    · rw [applyValidationResult_pos h1, applyValidationResult_pos h2]
      by_cases h12 : supersedes r2 r1
      · rw [applyValidationResult_pos h12,
          applyValidationResult_neg (supersedes_asymm r2 r1 h12)]
      · by_cases h21 : supersedes r1 r2
        · rw [applyValidationResult_neg h12, applyValidationResult_pos h21]
        · rw [supersedes_total_eq r1 r2 h21 h12]
    · have h21 : ¬ supersedes r2 r1 := fun hh => h2 (supersedes_trans _ _ _ hh h1)
      rw [applyValidationResult_pos h1, applyValidationResult_neg h2,
        applyValidationResult_pos h1, applyValidationResult_neg h21]
  · by_cases h2 : supersedes r2 cur
    · have h12 : ¬ supersedes r1 r2 := fun hh => h1 (supersedes_trans _ _ _ hh h2)
      rw [applyValidationResult_neg h1, applyValidationResult_pos h2,
        applyValidationResult_neg h12]
    · rw [applyValidationResult_neg h1, applyValidationResult_neg h2,
        applyValidationResult_neg h1]

/-- C4: cancellation is idempotent: cancelling an id already held by the
cancelled collection reports success with a zero error code, leaves the
store, and with it every other transaction and the balance, unchanged. -/
theorem cancel_idempotent_on_cancelled (s : LedgerStore) (i : Nat)
    (h : containsId s.cancelled i = true) :
    wallet_cancel_pending_transaction s i =
      (s, { value := true, errorCode := 0 }) ∧
    (∀ j : Nat, findTx (wallet_cancel_pending_transaction s i).1 j = findTx s j) ∧
    (∀ (tip : Nat) (utxos : List Utxo),
       computeBalance tip utxos (wallet_cancel_pending_transaction s i).1 =
         computeBalance tip utxos s) := by
  have hc : cancelTransaction s i = .ok s := by
    simp [cancelTransaction, h]
  have hw : wallet_cancel_pending_transaction s i =
      (s, { value := true, errorCode := 0 }) := by
    simp [wallet_cancel_pending_transaction, hc, resultingStore, ffiReturn,
      Except.map]
  exact ⟨hw, fun j => by rw [hw], fun tip utxos => by rw [hw]⟩

/-- Witness for C4 on the sample store, whose cancelled collection holds
id 4. -/
theorem cancel_idempotent_on_cancelled_witness :
    wallet_cancel_pending_transaction sampleStore 4 =
      (sampleStore, { value := true, errorCode := 0 }) := by
  exact (cancel_idempotent_on_cancelled sampleStore 4 (by rfl)).1

/-- C5: cancelling a transaction in the MinedConfirmed state fails with
InvalidStateTransition and leaves the store untouched, and in general
asking the state machine for an illegal transition fails with
InvalidStateTransition and leaves the store untouched. -/
theorem cancel_minedconfirmed_fails (s : LedgerStore) (i : Nat)
    (c : Collection) (tx : SpecTransaction) :
    (findTx s i = some (c, tx) → tx.status = .MinedConfirmed →
       containsId s.cancelled i = false →
       cancelTransaction s i = .error .invalidStateTransition ∧
       resultingStore s (cancelTransaction s i) = s) ∧
    (∀ tgt : TxStatus, findTx s i = some (c, tx) →
       legalTransition tx.status tgt = false →
       applyTransition s i tgt = .error .invalidStateTransition ∧
       resultingStore s (applyTransition s i tgt) = s) := by
  constructor
  · intro hfind hst hnc
    have hleg : legalTransition tx.status .Cancelled = false := by
      rw [hst]; rfl
    have hc : cancelTransaction s i = .error .invalidStateTransition := by
      simp [cancelTransaction, hnc, hfind, hleg]
    exact ⟨hc, by simp [hc, resultingStore]⟩
  · intro tgt hfind hleg
    have ha : applyTransition s i tgt = .error .invalidStateTransition := by
      simp [applyTransition, hfind, hleg]
    exact ⟨ha, by simp [ha, resultingStore]⟩

/-- Witness for C5 on the sample store, whose completed collection holds
the mined-confirmed transaction with id 7. -/
theorem cancel_minedconfirmed_fails_witness :
    cancelTransaction sampleStore 7 = .error .invalidStateTransition ∧
    resultingStore sampleStore (cancelTransaction sampleStore 7) =
      sampleStore := by
  exact (cancel_minedconfirmed_fails sampleStore 7 .completed
    sampleConfirmedTx).1 (by rfl) (by rfl) (by rfl)

theorem containsId_cons (tx : SpecTransaction) (l : List SpecTransaction)
    (i : Nat) : containsId (tx :: l) i = ((tx.id == i) || containsId l i) := by
  simp [containsId]

theorem containsId_removeId_self (l : List SpecTransaction) (i : Nat) :
    containsId (removeId l i) i = false := by
  induction l with
  | nil => rfl
  | cons t rest ih =>
      simp only [removeId, List.filter_cons] at ih ⊢
      by_cases ht : t.id = i
      · simpa [ht] using ih
      · simp [ht, containsId_cons, ih]

theorem containsId_removeId_ne (l : List SpecTransaction) (i j : Nat)
    (h : j ≠ i) : containsId (removeId l i) j = containsId l j := by
  induction l with
  | nil => rfl
  | cons t rest ih =>
      simp only [removeId, List.filter_cons] at ih ⊢
      by_cases ht : t.id = i
      · have hne : (t.id == j) = false := by
          simp [ht]
          omega
        simp [ht, containsId_cons, ih, hne]
        intro he
        exact absurd he.symm h
      · simp [ht, containsId_cons, ih]

theorem containsId_map_status (l : List SpecTransaction) (i : Nat)
    (st : TxStatus) (j : Nat) :
    containsId (l.map (fun t => if t.id = i then { t with status := st } else t)) j
      = containsId l j := by
  induction l with
  | nil => rfl
  | cons t rest ih =>
      by_cases ht : t.id = i <;> simp [containsId_cons, ih, ht]

theorem find?_id_eq {l : List SpecTransaction} {i : Nat} {tx : SpecTransaction}
    (h : l.find? (fun t => t.id == i) = some tx) : tx.id = i := by
  have := List.find?_some h
  simpa using this

theorem find?_containsId {l : List SpecTransaction} {i : Nat}
    {tx : SpecTransaction} (h : l.find? (fun t => t.id == i) = some tx) :
    containsId l i = true := by
  have hm := List.mem_of_find?_eq_some h
  have hid := find?_id_eq h
  simp [containsId, List.any_eq_true]
  exact ⟨tx, hm, by simp [hid]⟩

theorem coll_setColl (s : LedgerStore) (c d : Collection)
    (l : List SpecTransaction) :
    coll (setColl s c l) d = if c = d then l else coll s d := by
  cases c <;> cases d <;> simp [coll, setColl]

theorem occupancy_setColl (s : LedgerStore) (c : Collection)
    (l : List SpecTransaction) (j : Nat) :
    occupancy (setColl s c l) j + (containsId (coll s c) j).toNat =
      occupancy s j + (containsId l j).toNat := by
  cases c <;> simp only [occupancy, setColl, coll] <;> ac_rfl

theorem bit_le_occupancy (s : LedgerStore) (c : Collection) (j : Nat) :
    (containsId (coll s c) j).toNat ≤ occupancy s j := by
  cases c <;> simp only [occupancy, coll]
  · exact ((Nat.le_add_right _ _).trans (Nat.le_add_right _ _)).trans
      (Nat.le_add_right _ _)
  · exact ((Nat.le_add_left _ _).trans (Nat.le_add_right _ _)).trans
      (Nat.le_add_right _ _)
  · exact (Nat.le_add_left _ _).trans (Nat.le_add_right _ _)
  · exact Nat.le_add_left _ _

theorem occupancy_eq_zero_of_not_held (s : LedgerStore) (j : Nat)
    (h : heldByWallet s j = false) : occupancy s j = 0 := by
  unfold heldByWallet at h
  simp only [Bool.or_eq_false_iff] at h
  obtain ⟨⟨⟨h1, h2⟩, h3⟩, h4⟩ := h
  simp [occupancy, h1, h2, h3, h4]

theorem occupancy_updateStatus (s : LedgerStore) (i : Nat) (st : TxStatus)
    (j : Nat) : occupancy (updateStatus s i st) j = occupancy s j := by
  simp [occupancy, updateStatus, containsId_map_status]

theorem occ_arith_fresh {o o2 b : Nat} (key : o2 + b = o + 1) (h0 : o = 0) :
    o2 ≤ 1 := by
  rw [h0] at key
  exact (Nat.le_add_right o2 b).trans (le_of_eq key)

theorem occ_arith_hit {o o1 o2 b : Nat} (k1 : o1 + 1 = o) (k2 : o2 + b = o1 + 1)
    (h : o ≤ 1) : o2 ≤ 1 := by
  rw [← k1] at h
  rw [← k2] at h
  exact (Nat.le_add_right o2 b).trans h

theorem occupancy_insert_le {s s' : LedgerStore} {c : Collection}
    {tx : SpecTransaction} (hok : insertTx s c tx = .ok s')
    (hinv : ∀ j, occupancy s j ≤ 1) : ∀ j, occupancy s' j ≤ 1 := by
  intro j
  unfold insertTx at hok
  by_cases hheld : heldByWallet s tx.id
  · simp [hheld] at hok
  · simp [hheld] at hok
    subst hok
    have key := occupancy_setColl s c (tx :: coll s c) j
    rw [containsId_cons] at key
    by_cases hj : tx.id = j
    · have h0 : occupancy s j = 0 := by
        rw [← hj]
        exact occupancy_eq_zero_of_not_held s tx.id (by simpa using hheld)
      have hbt : (tx.id == j) = true := by simp [hj]
      rw [hbt] at key
      simp at key
      exact occ_arith_fresh key h0
    · have hbt : (tx.id == j) = false := by simp [hj]
      rw [hbt] at key
      simp at key
      rw [key]
      exact hinv j

theorem occupancy_move_le {s s' : LedgerStore} {i : Nat} {src dst : Collection}
    (hok : moveTx s i src dst = .ok s') (hinv : ∀ j, occupancy s j ≤ 1) :
    ∀ j, occupancy s' j ≤ 1 := by
  intro j
  unfold moveTx at hok
  cases hfind : (coll s src).find? (fun t => t.id == i) with
  | none =>
      rw [hfind] at hok
      by_cases hc : containsId (coll s dst) i
      · simp [hc] at hok
        rw [← hok]
        exact hinv j
      · simp [hc] at hok
  | some tx =>
      rw [hfind] at hok
      simp at hok
      subst hok
      have htx : tx.id = i := find?_id_eq hfind
      have hsrc : containsId (coll s src) i = true := find?_containsId hfind
      have k1 := occupancy_setColl s src (removeId (coll s src) i) j
      have k2 := occupancy_setColl (setColl s src (removeId (coll s src) i)) dst
        (tx :: coll (setColl s src (removeId (coll s src) i)) dst) j
      rw [containsId_cons] at k2
      by_cases hj : j = i
      · have hs1 : containsId (removeId (coll s src) i) j = false := by
          rw [hj]
          exact containsId_removeId_self (coll s src) i
        have hsrc2 : containsId (coll s src) j = true := by
          rw [hj]
          exact hsrc
        have hbt : (tx.id == j) = true := by simp [htx, hj]
        rw [hs1, hsrc2] at k1
        rw [hbt] at k2
        simp at k1 k2
        exact occ_arith_hit k1 k2 (hinv j)
      · have hs1 : containsId (removeId (coll s src) i) j =
            containsId (coll s src) j := containsId_removeId_ne _ i j hj
        have hbt : (tx.id == j) = false := by
          simp [htx]
          omega
        rw [hs1] at k1
        rw [hbt] at k2
        simp at k2
        rw [k2, Nat.add_right_cancel k1]
        exact hinv j

theorem occupancy_cancel_le {s s' : LedgerStore} {i : Nat}
    (hok : cancelTransaction s i = .ok s') (hinv : ∀ j, occupancy s j ≤ 1) :
    ∀ j, occupancy s' j ≤ 1 := by
  unfold cancelTransaction at hok
  by_cases hc : containsId s.cancelled i
  · simp [hc] at hok
    intro j
    rw [← hok]
    exact hinv j
  · simp [hc] at hok
    cases hfind : findTx s i with
    | none => rw [hfind] at hok; simp at hok
    | some ct =>
        rw [hfind] at hok
        obtain ⟨c, tx⟩ := ct
        by_cases hleg : legalTransition tx.status .Cancelled
        · simp [hleg] at hok
          exact occupancy_move_le hok
            (fun j => by rw [occupancy_updateStatus]; exact hinv j)
        · simp [hleg] at hok

theorem reachable_occupancy {s : LedgerStore} (h : Reachable s) :
    ∀ j, occupancy s j ≤ 1 := by
  induction h with
  | empty => intro j; simp [occupancy, emptyStore, containsId]
  | insert hr hok ih => exact occupancy_insert_le hok ih
  | move hr hok ih => exact occupancy_move_le hok ih
  | update hr ih => intro j; rw [occupancy_updateStatus]; exact ih j
  | cancel hr hok ih => exact occupancy_cancel_le hok ih

/-- C1: in every reachable store state, an id the wallet holds sits in
exactly one of the four collections pending-inbound, pending-outbound,
completed and cancelled, and reachability closes this under every store
mutation. -/
theorem ledger_exactly_one_collection (s : LedgerStore) (i : Nat)
    (hreach : Reachable s) (hheld : heldByWallet s i = true) :
    occupancy s i = 1 := by
  have hle := reachable_occupancy hreach i
  have hge : 1 ≤ occupancy s i := by
    unfold heldByWallet at hheld
    simp only [Bool.or_eq_true] at hheld
    unfold occupancy
    rcases hheld with ((h | h) | h) | h <;> rw [h]
    · exact ((Nat.le_add_right 1 _).trans (Nat.le_add_right _ _)).trans
        (Nat.le_add_right _ _)
    · exact ((Nat.le_add_left 1 _).trans (Nat.le_add_right _ _)).trans
        (Nat.le_add_right _ _)
    · exact (Nat.le_add_left 1 _).trans (Nat.le_add_right _ _)
    · exact Nat.le_add_left 1 _
  exact Nat.le_antisymm hle hge

/-- Witness for C1 on the store reached by inserting the sample confirmed
transaction into the empty store. -/
theorem ledger_exactly_one_collection_witness :
    occupancy sampleInsertStore 7 = 1 := by
  have hreach : Reachable sampleInsertStore :=
    @Reachable.insert emptyStore sampleInsertStore Collection.completed
      sampleConfirmedTx Reachable.empty (by rfl)
  exact ledger_exactly_one_collection sampleInsertStore 7 hreach (by rfl)

theorem recovery_trace_done {total L : Nat} {tr : List RecoveryEvent}
    {s : RecoveryState} (h : RecoveryTrace total L .done tr s) : tr = [] := by
  cases h with
  | nil => rfl
  | cons hstep htr => cases hstep

theorem checkProgress_weaken (l : Nat) (tr : List RecoveryEvent)
    (h : checkProgressEvents (some l) tr = true) :
    checkProgressEvents none tr = true := by
  cases tr with
  | nil => simp [checkProgressEvents] at h
  | cons e rest =>
      cases e with
      | connectingToBaseNode => simp [checkProgressEvents] at h
      | connectedToBaseNode => simp [checkProgressEvents] at h
      | connectionToBaseNodeFailed r li => simp [checkProgressEvents] at h
      | progress c t =>
          simp only [checkProgressEvents, Bool.and_eq_true] at h ⊢
          exact ⟨⟨by trivial, h.1.2⟩, h.2⟩
      | completed u v => simpa [checkProgressEvents] using h
      | scanningRoundFailed r li => simp [checkProgressEvents] at h
      | recoveryFailed => simp [checkProgressEvents] at h

theorem trace_scanning_check (total L : Nat) :
    ∀ (tr : List RecoveryEvent) (c sr : Nat),
      RecoveryTrace total L (.scanning c sr) tr .done →
      (∀ e ∈ tr, isFailureEvent e = false) →
      checkProgressEvents (some c) tr = true := by
  intro tr
  induction tr with
  | nil =>
      intro c sr htr hnf
      cases htr
  | cons e rest ih =>
      intro c sr htr hnf
      cases htr with
      | cons hstep htr2 =>
          cases hstep with
          | progressStep c c' sr h1 h2 =>
              have hrest := ih c' sr htr2
                (fun x hx => hnf x (List.mem_cons_of_mem _ hx))
              simp [checkProgressEvents, checkProgressLast, hrest, h1, h2]
          | scanFailedRetry c sr hle =>
              have := hnf _ (List.mem_cons_self _ _)
              simp [isFailureEvent] at this
          | scanFailedExhausted c sr hgt =>
              have := hnf _ (List.mem_cons_self _ _)
              simp [isFailureEvent] at this
          | completeStep c sr u v =>
              have hrest : rest = [] := recovery_trace_done htr2
              subst hrest
              simp [checkProgressEvents]

theorem trace_attempting_shape (total L r : Nat) (tr : List RecoveryEvent)
    (htr : RecoveryTrace total L (.attempting r) tr .done)
    (hnf : ∀ e ∈ tr, isFailureEvent e = false) :
    ∃ tr2, tr = .connectedToBaseNode :: tr2 ∧
      checkProgressEvents none tr2 = true := by
  cases htr with
  | cons hstep htr2 =>
      cases hstep with
      | connected r =>
          have hchk := trace_scanning_check total L _ 0 0 htr2
            (fun x hx => hnf x (List.mem_cons_of_mem _ hx))
          exact ⟨_, rfl, checkProgress_weaken 0 _ hchk⟩
      | connectFailedRetry r hle =>
          have := hnf _ (List.mem_cons_self _ _)
          simp [isFailureEvent] at this
      | connectFailedExhausted r hgt =>
          have := hnf _ (List.mem_cons_self _ _)
          simp [isFailureEvent] at this

/-- C2 counterexample: a recovery attempt permitted by the protocol that
ends in failure rather than in Completed: with retry limit 0 the attempt
announces a connection, fails it, and terminates with RecoveryFailed, and
its event sequence does not match the claimed pattern. -/
theorem recovery_pattern_counterexample :
    RecoveryTrace 10 0 (.idle 0)
      [.connectingToBaseNode, .connectionToBaseNodeFailed 1 0, .recoveryFailed]
      .failed ∧
    terminalRecoveryState .failed = true ∧
    matchesRecoveryPattern
      [.connectingToBaseNode, .connectionToBaseNodeFailed 1 0, .recoveryFailed]
      = false := by
  refine ⟨?_, rfl, by decide⟩
  exact .cons (.announce 0)
    (.cons (.connectFailedExhausted 0 (by decide))
      (.cons .failEmit (.nil _)))

/-- C2 amended: for every recovery attempt that completes successfully and
in which no connection failure, scanning-round failure or terminal failure
occurs, the events delivered to the progress callback are one or more
ConnectingToBaseNode, then exactly one ConnectedToBaseNode, then zero or
more Progress events with strictly increasing current below the total,
ending with a terminal Completed event. -/
theorem recovery_success_pattern (total L : Nat) (tr : List RecoveryEvent)
    (htr : RecoveryTrace total L (.idle 0) tr .done)
    (hnf : ∀ e ∈ tr, isFailureEvent e = false) :
    matchesRecoveryPattern tr = true := by
  cases htr with
  | cons hstep htr2 =>
      cases hstep with
      | announce r =>
          obtain ⟨tr2, heq, hchk⟩ := trace_attempting_shape total L 0 _ htr2
            (fun x hx => hnf x (List.mem_cons_of_mem _ hx))
          subst heq
          simp [matchesRecoveryPattern, matchesAfterFirstConnecting, hchk]

/-- Witness for C2 on a concrete successful attempt with two progress
rounds over ten blocks. -/
theorem recovery_success_pattern_witness :
    matchesRecoveryPattern
      [.connectingToBaseNode, .connectedToBaseNode, .progress 2 10,
       .progress 5 10, .completed 3 1000] = true := by
  have htr : RecoveryTrace 10 3 (.idle 0)
      [.connectingToBaseNode, .connectedToBaseNode, .progress 2 10,
       .progress 5 10, .completed 3 1000] .done :=
    .cons (.announce 0) (.cons (.connected 0)
      (.cons (.progressStep 0 2 0 (by decide) (by decide))
        (.cons (.progressStep 2 5 0 (by decide) (by decide))
          (.cons (.completeStep 5 0 3 1000) (.nil _)))))
  exact recovery_success_pattern 10 3 _ htr (by decide)
